import Mathlib

/-!
Verification development for the Airtable-backed membership site.

The definitions below are shallow embeddings of the TypeScript sources:
* `src/lib/airtable.ts` — rate limiter, retry loop, pagination, attachment helper;
* `src/api/clinical-programs.ts` and `src/api/resource-library.ts` — serverless handlers;
* `src/scripts/migrateFilesToSupabase.ts` — migration script;
* the zustand authentication store.

Machine integers are modelled as `Nat`/`Int`; JavaScript `undefined`/missing
values as `Option`; thrown exceptions as `Except`.  Time is modelled by an
explicit clock value, with `sleep ms` advancing the clock by exactly `ms`.
-/

namespace Airtable

/-- `RATE_LIMIT_MIN_SPACING_MS` from `src/lib/airtable.ts` (5 req/s → 220ms spacing). -/
def RATE_LIMIT_MIN_SPACING_MS : Nat := 220

/-- `MAX_RETRIES` from `src/lib/airtable.ts`. -/
def MAX_RETRIES : Nat := 2

/-- `RETRY_BACKOFF_BASE_MS` from `src/lib/airtable.ts`. -/
def RETRY_BACKOFF_BASE_MS : Nat := 500

/-- `res.ok` of the Fetch API: status in [200, 300). -/
def respOk (status : Nat) : Bool := 200 ≤ status && status < 300

/--
The retry loop of `airtableFetch` (src/lib/airtable.ts lines 101-140), as a
function of the sequence of HTTP statuses the server answers on successive
attempts.  Returns the list of retry-sleep durations (in ms, in order) and
either `Except.ok status` (a 2xx response, whose body is then returned) or
`Except.error status` (the `throw new Error` carrying the status).
The `[]` case is a model artifact (the server always answers in reality);
every claim is stated on lists long enough to cover the attempts made.
-/
def airtableFetchGo : List Nat → Nat → List Nat × Except Nat Nat
  | [], _ => ([], Except.error 0)
  | status :: rest, attempt =>
    if respOk status then ([], Except.ok status)
    else if status = 429 ∧ attempt < MAX_RETRIES then
      let r := airtableFetchGo rest (attempt + 1)
      (30000 :: r.1, r.2)
    else if (500 ≤ status ∧ status < 600) ∧ attempt < MAX_RETRIES then
      let delay := RETRY_BACKOFF_BASE_MS * 2 ^ attempt
      let r := airtableFetchGo rest (attempt + 1)
      (delay :: r.1, r.2)
    else ([], Except.error status)

/-- `airtableFetch` starts the retry loop with `attempt = 0`. -/
def airtableFetch (statuses : List Nat) : List Nat × Except Nat Nat :=
  airtableFetchGo statuses 0

/-- The mutable state read by `acquireRateLimitSlot`: the current clock
(`Date.now()`) and the module-level `nextAvailableTs` variable. -/
structure RateLimiterState where
  now : Nat
  nextAvailableTs : Nat
  deriving DecidableEq

/--
`acquireRateLimitSlot` (src/lib/airtable.ts lines 42-49): computes
`wait = max 0 (nextAvailableTs - now)` (Nat subtraction), sleeps that long
(the clock advances by exactly `wait`), and sets `nextAvailableTs` to the
new clock value plus `RATE_LIMIT_MIN_SPACING_MS`.  Returns the wait and the
post-state; the post-state's `now` is the dispatch time of the request.
-/
def acquireRateLimitSlot (st : RateLimiterState) : Nat × RateLimiterState :=
  let wait := st.nextAvailableTs - st.now
  let dispatchTime := st.now + wait
  (wait, { now := dispatchTime, nextAvailableTs := dispatchTime + RATE_LIMIT_MIN_SPACING_MS })

end Airtable

namespace Airtable

/-- The retry-sleep list never exceeds the remaining retry budget. -/
theorem airtableFetchGo_length (statuses : List Nat) :
    ∀ attempt : Nat, (airtableFetchGo statuses attempt).1.length ≤ MAX_RETRIES - attempt := by
  induction statuses with
  | nil => intro a; simp [airtableFetchGo]
  | cons s rest ih =>
    intro a
    simp only [airtableFetchGo]
    split
    · simp
    · split
      · rename_i h
        have hlt : a < MAX_RETRIES := h.2
        have := ih (a + 1)
        simp only [List.length_cons]
        omega
      · split
        · rename_i h
          have hlt : a < MAX_RETRIES := h.2
          have := ih (a + 1)
          simp only [List.length_cons]
          omega
        · simp

/-- C1: a 429 response with retry budget left triggers exactly one 30000 ms
wait and then the retry; at most `MAX_RETRIES = 2` retries are performed in a
call; with the budget exhausted a further 429 makes the call throw an error
carrying status 429; in particular three straight 429s give exactly the trace
`[30000, 30000]` and then the throw. -/
theorem claim_C1 :
    (∀ (rest : List Nat) (attempt : Nat), attempt < MAX_RETRIES →
        airtableFetchGo (429 :: rest) attempt =
          (30000 :: (airtableFetchGo rest (attempt + 1)).1,
            (airtableFetchGo rest (attempt + 1)).2)) ∧
    (∀ (rest : List Nat) (attempt : Nat), MAX_RETRIES ≤ attempt →
        airtableFetchGo (429 :: rest) attempt = ([], Except.error 429)) ∧
    (∀ statuses : List Nat, (airtableFetch statuses).1.length ≤ MAX_RETRIES) ∧
    (∀ rest : List Nat,
        airtableFetch (429 :: 429 :: 429 :: rest) = ([30000, 30000], Except.error 429)) := by
  refine ⟨?_, ?_, ?_, ?_⟩
  · intro rest a ha
    simp [airtableFetchGo, respOk, ha]
  · intro rest a ha
    have h1 : ¬ (429 = 429 ∧ a < MAX_RETRIES) := by omega
    have h2 : ¬ ((500 ≤ 429 ∧ 429 < 600) ∧ a < MAX_RETRIES) := by omega
    simp [airtableFetchGo, respOk, h1, h2]
    omega
  · intro statuses
    have := airtableFetchGo_length statuses 0
    simpa [airtableFetch] using this
  · intro rest
    have h1 : (0 : Nat) < MAX_RETRIES := by decide
    have h2 : (1 : Nat) < MAX_RETRIES := by decide
    have h3 : ¬ (429 = 429 ∧ MAX_RETRIES < MAX_RETRIES) := by omega
    have h4 : ¬ ((500 ≤ 429 ∧ 429 < 600) ∧ MAX_RETRIES < MAX_RETRIES) := by omega
    simp [airtableFetch, airtableFetchGo, respOk, h1, h2, h3, h4, MAX_RETRIES]

/-- Witness for C1 at concrete inputs. -/
theorem claim_C1_witness :
    airtableFetchGo (429 :: [200]) 0 =
      (30000 :: (airtableFetchGo [200] 1).1, (airtableFetchGo [200] 1).2) ∧
    airtableFetchGo (429 :: []) 2 = ([], Except.error 429) ∧
    airtableFetch [429, 429, 429] = ([30000, 30000], Except.error 429) :=
  ⟨claim_C1.1 [200] 0 (by decide), claim_C1.2.1 [] 2 (by decide), claim_C1.2.2.2 []⟩

/-- A status ≥ 500 is not `respOk`. -/
theorem respOk_of_500 (s : Nat) (hs : 500 ≤ s) : respOk s = false := by
  simp only [respOk, Bool.and_eq_false_iff, decide_eq_false_iff_not]
  right; omega

/-- A 5xx status with retry budget left: one backoff sleep, then retry. -/
theorem fetchGo_5xx_retry (s : Nat) (rest : List Nat) (a : Nat)
    (h5 : 500 ≤ s) (h6 : s < 600) (ha : a < MAX_RETRIES) :
    airtableFetchGo (s :: rest) a =
      (RETRY_BACKOFF_BASE_MS * 2 ^ a :: (airtableFetchGo rest (a + 1)).1,
        (airtableFetchGo rest (a + 1)).2) := by
  have h429 : s ≠ 429 := by omega
  simp [airtableFetchGo, respOk_of_500 s h5, h429, h5, h6, ha]

/-- A 5xx status with the retry budget exhausted: throw carrying the status. -/
theorem fetchGo_5xx_exhausted (s : Nat) (rest : List Nat) (a : Nat)
    (h5 : 500 ≤ s) (h6 : s < 600) (ha : MAX_RETRIES ≤ a) :
    airtableFetchGo (s :: rest) a = ([], Except.error s) := by
  have h429 : ¬ (s = 429 ∧ a < MAX_RETRIES) := by omega
  have hxx : ¬ ((500 ≤ s ∧ s < 600) ∧ a < MAX_RETRIES) := by omega
  simp [airtableFetchGo, respOk_of_500 s h5, h429, hxx]

/-- C2: a 5xx response with retry budget left triggers a wait of
`500 * 2 ^ attempt` ms (500 ms before the first retry, 1000 ms before the
second) and then the retry; with the budget exhausted a further 5xx makes the
call throw an error carrying that status; three straight 5xx responses give
exactly the trace `[500, 1000]` and then the throw. -/
theorem claim_C2 :
    (∀ (s : Nat) (rest : List Nat) (attempt : Nat),
        500 ≤ s → s < 600 → attempt < MAX_RETRIES →
        airtableFetchGo (s :: rest) attempt =
          (RETRY_BACKOFF_BASE_MS * 2 ^ attempt :: (airtableFetchGo rest (attempt + 1)).1,
            (airtableFetchGo rest (attempt + 1)).2)) ∧
    (∀ (s : Nat) (rest : List Nat) (attempt : Nat),
        500 ≤ s → s < 600 → MAX_RETRIES ≤ attempt →
        airtableFetchGo (s :: rest) attempt = ([], Except.error s)) ∧
    (∀ (s : Nat) (rest : List Nat), 500 ≤ s → s < 600 →
        airtableFetch (s :: s :: s :: rest) = ([500, 1000], Except.error s)) := by
  refine ⟨fetchGo_5xx_retry, fetchGo_5xx_exhausted, ?_⟩
  intro s rest h5 h6
  rw [airtableFetch, fetchGo_5xx_retry s _ 0 h5 h6 (by decide),
    fetchGo_5xx_retry s _ 1 h5 h6 (by decide),
    fetchGo_5xx_exhausted s _ 2 h5 h6 (by decide)]
  simp [RETRY_BACKOFF_BASE_MS]

/-- Witness for C2 at concrete inputs (status 503). -/
theorem claim_C2_witness :
    airtableFetchGo (503 :: [200]) 0 =
      (RETRY_BACKOFF_BASE_MS * 2 ^ 0 :: (airtableFetchGo [200] 1).1,
        (airtableFetchGo [200] 1).2) ∧
    airtableFetchGo (503 :: []) 2 = ([], Except.error 503) ∧
    airtableFetch [503, 503, 503] = ([500, 1000], Except.error 503) :=
  ⟨claim_C2.1 503 [200] 0 (by decide) (by decide) (by decide),
    claim_C2.2.1 503 [] 2 (by decide) (by decide) (by decide),
    claim_C2.2.2 503 [] (by decide) (by decide)⟩

/-- C3: `acquireRateLimitSlot` sleeps exactly `nextAvailableTs - now` when the
current time is earlier than `nextAvailableTs` (and not at all otherwise),
then advances `nextAvailableTs` to the new current time plus 220 ms; hence
two consecutive dispatches, with any amount of time elapsing in between,
are at least 220 ms apart. -/
theorem claim_C3 :
    (∀ st : RateLimiterState,
        (acquireRateLimitSlot st).2.nextAvailableTs =
          (acquireRateLimitSlot st).2.now + RATE_LIMIT_MIN_SPACING_MS) ∧
    (∀ st : RateLimiterState, st.now < st.nextAvailableTs →
        (acquireRateLimitSlot st).1 = st.nextAvailableTs - st.now ∧
        (acquireRateLimitSlot st).2.now = st.nextAvailableTs) ∧
    (∀ st : RateLimiterState, st.nextAvailableTs ≤ st.now →
        (acquireRateLimitSlot st).1 = 0 ∧ (acquireRateLimitSlot st).2.now = st.now) ∧
    (∀ (st : RateLimiterState) (elapsed : Nat),
        (acquireRateLimitSlot st).2.now + RATE_LIMIT_MIN_SPACING_MS ≤
          (acquireRateLimitSlot
            { now := (acquireRateLimitSlot st).2.now + elapsed,
              nextAvailableTs := (acquireRateLimitSlot st).2.nextAvailableTs }).2.now) := by
  refine ⟨?_, ?_, ?_, ?_⟩
  · intro st; simp [acquireRateLimitSlot]
  · intro st h; simp [acquireRateLimitSlot]; omega
  · intro st h; simp [acquireRateLimitSlot]; omega
  · intro st elapsed; simp [acquireRateLimitSlot]; omega

/-- Witness for C3 at concrete states. -/
theorem claim_C3_witness :
    (acquireRateLimitSlot ⟨100, 150⟩).1 = 150 - 100 ∧
    (acquireRateLimitSlot ⟨100, 150⟩).2.now = 150 ∧
    (acquireRateLimitSlot ⟨200, 150⟩).1 = 0 ∧
    (acquireRateLimitSlot ⟨200, 150⟩).2.now = 200 :=
  ⟨(claim_C3.2.1 ⟨100, 150⟩ (by decide)).1, (claim_C3.2.1 ⟨100, 150⟩ (by decide)).2,
    (claim_C3.2.2.1 ⟨200, 150⟩ (by decide)).1, (claim_C3.2.2.1 ⟨200, 150⟩ (by decide)).2⟩

end Airtable

namespace Api

/-- The two environment variables read by both serverless handlers. -/
structure Env where
  apiKey : Option String
  baseId : Option String
  deriving DecidableEq

/-- JS falsiness of a `string | undefined` value: missing or empty. -/
def strFalsy : Option String → Bool
  | none => true
  | some s => s = ""

/-- JS `String.prototype.toLowerCase` (per-character lowering). -/
def jsToLower (s : String) : String := ⟨s.data.map Char.toLower⟩

/-- JS `String.prototype.trim`: strip leading and trailing whitespace. -/
def jsTrim (s : String) : String :=
  ⟨((s.data.dropWhile Char.isWhitespace).reverse.dropWhile Char.isWhitespace).reverse⟩

/-- `!AIRTABLE_API_KEY || !AIRTABLE_BASE_ID` in both handlers. -/
def envMissing (e : Env) : Bool := strFalsy e.apiKey || strFalsy e.baseId

/-- Minimal Airtable attachment as seen by the handlers (`AirtableAttachment`). -/
structure Attachment where
  url : String
  filename : Option String
  deriving DecidableEq

/-- `firstAttachmentUrl`: the first attachment's url when the list is nonempty
and that url is truthy, else `undefined`. -/
def firstAttachmentUrl : List Attachment → Option String
  | [] => none
  | a :: _ => if a.url = "" then none else some a.url

/-- JS `x || y` on optional strings (`x` when present and nonempty, else `y`). -/
def jsOrStr (x y : Option String) : Option String :=
  match x with
  | some s => if s = "" then y else some s
  | none => y

/-- JS `(x as string) || d` for a string default `d`. -/
def strOr (x : Option String) (d : String) : String :=
  match x with
  | some s => if s = "" then d else s
  | none => d

/-- JS `(x as string) || undefined`. -/
def strOrNone (x : Option String) : Option String :=
  match x with
  | some s => if s = "" then none else some s
  | none => none

/-- Fields of a `ClinicalPrograms` record used by the handler. -/
structure ProgramFields where
  programSlug : Option String
  programName : Option String
  programDescription : Option String
  programOverview : Option String
  experienceLevel : Option String
  deriving DecidableEq

/-- One element of list-mode `items` in /api/clinical-programs. -/
structure ProgramItem where
  programSlug : String
  programName : String
  programDescription : String
  experienceLevel : Option String
  deriving DecidableEq

/-- The list-mode mapping of a program record (defaults applied). -/
def mkProgramItem (r : ProgramFields) : ProgramItem :=
  { programSlug := strOr r.programSlug ""
    programName := strOr r.programName ""
    programDescription := strOr r.programDescription ""
    experienceLevel := strOrNone r.experienceLevel }

/-- A `TrainingModules` record.  `programSlugs` holds the values of the
`{programSlug}` field matched by the server-side `'slug' IN {programSlug}`
filter; the server-side `sortOrder` sort is not modelled (no claim concerns
ordering), so `sortOrder` is carried unused. -/
structure ModuleRecord where
  id : String
  programSlugs : List String
  moduleName : Option String
  moduleLength : Option String
  moduleLink : Option String
  moduleFile : List Attachment
  sortOrder : Option Int
  deriving DecidableEq

/-- A `ProtocolManuals` record. -/
structure ManualRecord where
  id : String
  programSlugs : List String
  protocolName : Option String
  protocolFile : List Attachment
  fileLink : Option String
  deriving DecidableEq

/-- A `DocumentationForms` record. -/
structure FormRecord where
  id : String
  programSlugs : List String
  formName : Option String
  formFile : List Attachment
  formCategory : Option String
  formLink : Option String
  deriving DecidableEq

/-- An `AdditionalResources` record. -/
structure ResourceRecord where
  id : String
  programSlugs : List String
  resourceName : Option String
  resourceFile : List Attachment
  resourceLink : Option String
  deriving DecidableEq

/-- Detail-mode training module entry. -/
structure ModuleItem where
  id : String
  moduleName : String
  moduleLength : Option String
  moduleLink : Option String
  moduleFileUrl : Option String
  deriving DecidableEq

/-- Detail-mode protocol manual entry. -/
structure ManualItem where
  id : String
  protocolName : String
  protocolFileUrl : Option String
  deriving DecidableEq

/-- Detail-mode documentation form entry. -/
structure FormItem where
  id : String
  formName : String
  formCategory : Option String
  formLink : Option String
  formFileUrl : Option String
  deriving DecidableEq

/-- Detail-mode additional resource entry. -/
structure ResourceItem where
  id : String
  resourceName : String
  resourceLink : Option String
  resourceFileUrl : Option String
  deriving DecidableEq

def mkModuleItem (m : ModuleRecord) : ModuleItem :=
  { id := m.id
    moduleName := strOr m.moduleName ""
    moduleLength := strOrNone m.moduleLength
    moduleLink := m.moduleLink
    moduleFileUrl := firstAttachmentUrl m.moduleFile }

def mkManualItem (m : ManualRecord) : ManualItem :=
  { id := m.id
    protocolName := strOr m.protocolName ""
    protocolFileUrl := jsOrStr m.fileLink (firstAttachmentUrl m.protocolFile) }

def mkFormItem (f : FormRecord) : FormItem :=
  { id := f.id
    formName := strOr f.formName ""
    formCategory := strOrNone f.formCategory
    formLink := f.formLink
    formFileUrl := firstAttachmentUrl f.formFile }

def mkResourceItem (r : ResourceRecord) : ResourceItem :=
  { id := r.id
    resourceName := strOr r.resourceName ""
    resourceLink := r.resourceLink
    resourceFileUrl := firstAttachmentUrl r.resourceFile }

/-- The regex split of `programOverview` into paragraphs followed by trim and
filter-nonempty; splitting on a bare newline gives the same list because the
multi-newline regex alternatives only merge separators whose in-between
segments trim to empty and are filtered out anyway. -/
def overviewParagraphs (s : String) : List String :=
  if s = "" then []
  else ((s.splitOn "\n").map jsTrim).filter (fun t => t ≠ "")

/-- The detail-mode response body. -/
structure ProgramDetail where
  programSlug : String
  programName : String
  programDescription : String
  programOverview : String
  programOverviewParagraphs : List String
  experienceLevel : Option String
  trainingModules : List ModuleItem
  protocolManuals : List ManualItem
  documentationForms : List FormItem
  additionalResources : List ResourceItem
  deriving DecidableEq

/-- The Airtable tables queried by /api/clinical-programs. -/
structure CPDb where
  clinicalPrograms : List ProgramFields
  trainingModules : List ModuleRecord
  protocolManuals : List ManualRecord
  documentationForms : List FormRecord
  additionalResources : List ResourceRecord
  deriving DecidableEq

/-- The `'slug' IN {programSlug}` server-side filter on a child record. -/
def childMatches (slug : String) (slugs : List String) : Bool := slugs.contains slug

/-- JSON body of a /api/clinical-programs response. -/
inductive CPBody
  | items (xs : List ProgramItem)
  | detail (d : ProgramDetail)
  | errorBody (msg : String)
  deriving DecidableEq

/-- Whether the body is a JSON object with an `error` field. -/
def CPBody.hasErrorField : CPBody → Bool
  | .errorBody _ => true
  | _ => false

structure CPResponse where
  status : Nat
  body : CPBody
  deriving DecidableEq

/--
The /api/clinical-programs handler (src/api/clinical-programs.ts).  `db` is
`.error ()` when an awaited Airtable call throws (caught by the surrounding
try/catch), `.ok d` when the queried tables answer from data `d`.  The
server-side `filterByFormula {programSlug} = 'esc'` with `maxRecords: 1` is
modelled as filtering on the slug field (blank when absent) and taking one
record; `escapeFormulaString` exists only to make that comparison exact.
-/
def clinicalProgramsHandler (env : Env) (method : String)
    (programSlugParam : Option String) (db : Except Unit CPDb) : CPResponse :=
  if method ≠ "GET" then ⟨405, .errorBody "Method Not Allowed"⟩
  else if envMissing env then
    ⟨500, .errorBody "Airtable is not configured. Set AIRTABLE_API_KEY and AIRTABLE_BASE_ID in your Vercel project."⟩
  else
    match db with
    | .error _ => ⟨500, .errorBody "Internal Server Error"⟩
    | .ok d =>
      let programSlug := jsTrim (strOr programSlugParam "")
      if programSlug = "" then
        ⟨200, .items (d.clinicalPrograms.map mkProgramItem)⟩
      else
        match (d.clinicalPrograms.filter
            (fun r => r.programSlug.getD "" = programSlug)).take 1 with
        | [] => ⟨404, .errorBody "Program not found"⟩
        | p :: _ =>
          ⟨200, .detail
            { programSlug := programSlug
              programName := strOr p.programName ""
              programDescription := strOr p.programDescription ""
              programOverview := strOr p.programOverview ""
              programOverviewParagraphs := overviewParagraphs (strOr p.programOverview "")
              experienceLevel := strOrNone p.experienceLevel
              trainingModules :=
                (d.trainingModules.filter
                  (fun m => childMatches programSlug m.programSlugs)).map mkModuleItem
              protocolManuals :=
                (d.protocolManuals.filter
                  (fun m => childMatches programSlug m.programSlugs)).map mkManualItem
              documentationForms :=
                (d.documentationForms.filter
                  (fun f => childMatches programSlug f.programSlugs)).map mkFormItem
              additionalResources :=
                (d.additionalResources.filter
                  (fun r => childMatches programSlug r.programSlugs)).map mkResourceItem }⟩

/-- `needle` is an initial segment of `hay` (character lists). -/
def charsStartWith : List Char → List Char → Bool
  | [], _ => true
  | _ :: _, [] => false
  | a :: as, b :: bs => a = b && charsStartWith as bs

/-- `needle` occurs contiguously somewhere in `hay` (character lists). -/
def charsContain : List Char → List Char → Bool
  | needle, [] => charsStartWith needle []
  | needle, b :: bs => charsStartWith needle (b :: bs) || charsContain needle bs

/-- JS `hay.includes(needle)`. -/
def strIncludes (hay needle : String) : Bool := charsContain needle.toList hay.toList

/-- The `Category` union type of /api/resource-library. -/
inductive Category
  | handouts
  | clinical
  | billing
  deriving DecidableEq

/-- The string literal tagged onto an item for its category. -/
def Category.label : Category → String
  | .handouts => "handouts"
  | .clinical => "clinical"
  | .billing => "billing"

/-- A record of one of the three resource-library tables: the name field, the
attachments field, and (for ClinicalGuidelines) the link field. -/
structure RLRecord where
  id : String
  name : Option String
  file : List Attachment
  link : Option String
  deriving DecidableEq

/-- `SimpleItem` of /api/resource-library. -/
structure SimpleItem where
  id : String
  name : String
  url : Option String
  deriving DecidableEq

/-- `fetchTable`: maps records to `SimpleItem`s; `useLink` is whether a
`linkField` was passed (only for ClinicalGuidelines). -/
def fetchTable (useLink : Bool) (records : List RLRecord) : List SimpleItem :=
  records.map (fun r =>
    { id := r.id
      name := strOr r.name ""
      url := jsOrStr (if useLink then r.link else none) (firstAttachmentUrl r.file) })

/-- A `SimpleItem` with its category tag. -/
structure TaggedItem where
  id : String
  name : String
  url : Option String
  category : Category
  deriving DecidableEq

def tagCategory (c : Category) (x : SimpleItem) : TaggedItem :=
  { id := x.id, name := x.name, url := x.url, category := c }

/-- The three Airtable tables queried by /api/resource-library. -/
structure RLDb where
  patientHandouts : List RLRecord
  clinicalGuidelines : List RLRecord
  medicalBillingResources : List RLRecord
  deriving DecidableEq

/-- JSON body of a /api/resource-library response. -/
inductive RLBody
  | items (xs : List TaggedItem)
  | errorBody (msg : String)
  deriving DecidableEq

/-- Whether the body is a JSON object with an `error` field. -/
def RLBody.hasErrorField : RLBody → Bool
  | .errorBody _ => true
  | _ => false

structure RLResponse where
  status : Nat
  body : RLBody
  deriving DecidableEq

/-- The `qlc ? results.filter(...) : results` text filter of the handler. -/
def applyQ (q : Option String) (xs : List TaggedItem) : List TaggedItem :=
  let qlc := jsToLower (strOr q "")
  if qlc ≠ "" then
    xs.filter (fun r => strIncludes (jsToLower (r.name ++ " " ++ r.category.label)) qlc)
  else xs

/--
The /api/resource-library handler (src/api/resource-library.ts).  `db` is
`.error ()` when an awaited Airtable call throws (caught by the try/catch),
`.ok d` otherwise.
-/
def resourceLibraryHandler (env : Env) (method : String)
    (cat q : Option String) (db : Except Unit RLDb) : RLResponse :=
  if method ≠ "GET" then ⟨405, .errorBody "Method Not Allowed"⟩
  else if envMissing env then
    ⟨500, .errorBody "Airtable is not configured. Set AIRTABLE_API_KEY and AIRTABLE_BASE_ID in your Vercel project."⟩
  else
    match db with
    | .error _ => ⟨500, .errorBody "Internal Server Error"⟩
    | .ok d =>
      let filterCat := jsToLower (strOr cat "")
      let doHandouts := filterCat = "" ∨ filterCat = "handouts"
      let doClinical := filterCat = "" ∨ filterCat = "clinical"
      let doBilling := filterCat = "" ∨ filterCat = "billing"
      let handouts := if doHandouts then fetchTable false d.patientHandouts else []
      let clinical := if doClinical then fetchTable true d.clinicalGuidelines else []
      let billing := if doBilling then fetchTable false d.medicalBillingResources else []
      let results :=
        handouts.map (tagCategory .handouts) ++ clinical.map (tagCategory .clinical)
          ++ billing.map (tagCategory .billing)
      ⟨200, .items (applyQ q results)⟩

end Api

namespace Auth

/-- The subscription object of the mock user. -/
structure Subscription where
  id : String
  planName : String
  status : String
  startDate : Nat
  endDate : Nat
  programs : List String
  deriving DecidableEq

/-- The `User` type as populated by the store (dates as epoch milliseconds). -/
structure User where
  id : String
  email : String
  name : String
  role : String
  subscription : Subscription
  createdAt : Nat
  deriving DecidableEq

/-- The zustand store state: `user` and `isAuthenticated`. -/
structure AuthState where
  user : Option User
  isAuthenticated : Bool
  deriving DecidableEq

/-- The store's initial state. -/
def initialState : AuthState := { user := none, isAuthenticated := false }

/-- The mock user built on successful login; `now` is `Date.now()`. -/
def mockUser (now : Nat) : User :=
  { id := "1"
    email := "demo@clinicalrxq.com"
    name := "Demo User"
    role := "member"
    subscription :=
      { id := "sub1"
        planName := "Premium"
        status := "active"
        startDate := now
        endDate := now + 365 * 24 * 60 * 60 * 1000
        programs := ["mtm-future-today", "timemymeds", "test-treat"] }
    createdAt := now }

/-- `login` of the auth store: the boolean the promise resolves to and the
store state after the call (the simulated 800 ms delay is not modelled). -/
def login (now : Nat) (email password : String) (st : AuthState) : Bool × AuthState :=
  if email = "demo@clinicalrxq.com" ∧ password = "password" then
    (true, { user := some (mockUser now), isAuthenticated := true })
  else (false, st)

end Auth

namespace Migration

/-- An Airtable attachment as read by the migration script
(`attachment.type` is its MIME type, possibly absent). -/
structure MigAttachment where
  filename : String
  mimeType : Option String
  url : String
  deriving DecidableEq

/-- A record of a migrated table: the configured file field's attachments,
the `programSlug` field, and the `supabaseFilePath` pointer field. -/
structure MigRecord where
  id : String
  attachments : List MigAttachment
  programSlug : Option String
  supabaseFilePath : Option String
  deriving DecidableEq

/-- A storage upload performed by the script. -/
structure UploadEffect where
  bucket : String
  path : String
  sourceUrl : String
  contentType : String
  deriving DecidableEq

/--
One iteration of the record loop in `migrateTable`
(src/scripts/migrateFilesToSupabase.ts lines 106-141), assuming the download
and upload succeed: the upload performed (none when the file field is empty
and the record is skipped) and the record afterwards (with
`supabaseFilePath` rewritten when migrated).  `pathStem` is the table
configuration's path prefix.
-/
def migrateRecord (bucket pathStem : String) (r : MigRecord) :
    Option UploadEffect × MigRecord :=
  match r.attachments with
  | [] => (none, r)
  | a :: _ =>
    let programSlug := Api.strOr r.programSlug "uncategorized"
    let supabasePath := pathStem ++ "/" ++ programSlug ++ "/" ++ a.filename
    (some { bucket := bucket
            path := supabasePath
            sourceUrl := a.url
            contentType := Api.strOr a.mimeType "application/octet-stream" },
      { r with supabaseFilePath := some supabasePath })

/-- `migrateTable` over all records of a table: the uploads in order and the
records after the loop. -/
def migrateTable (bucket pathStem : String) (records : List MigRecord) :
    List UploadEffect × List MigRecord :=
  ((records.map (migrateRecord bucket pathStem)).filterMap Prod.fst,
    (records.map (migrateRecord bucket pathStem)).map Prod.snd)

end Migration

namespace Airtable

/-- A JavaScript runtime value, as far as `getAttachmentArray` can observe. -/
inductive JVal
  | str (s : String)
  | num (n : Int)
  | boolean (b : Bool)
  | jsNull
  | undef
  | arr (xs : List JVal)
  | obj (fields : List (String × JVal))

/-- JS truthiness. -/
def jsTruthy : JVal → Bool
  | .str s => s ≠ ""
  | .num n => n ≠ 0
  | .boolean b => b
  | .jsNull => false
  | .undef => false
  | .arr _ => true
  | .obj _ => true

/-- `typeof a === 'object'` restricted to truthy values: arrays and plain
objects (`null` is already excluded by truthiness). -/
def isObjectLike : JVal → Bool
  | .arr _ => true
  | .obj _ => true
  | _ => false

/-- Property access `(a as any).k`: `undefined` on non-objects and missing keys. -/
def getField (v : JVal) (k : String) : JVal :=
  match v with
  | .obj fields => (fields.lookup k).getD JVal.undef
  | _ => JVal.undef

/-- `SimpleAttachment` as actually produced at runtime: the three property
values, whatever they are. -/
structure SimpleAttachment where
  id : JVal
  url : JVal
  filename : JVal

/-- The arrow function inside `getAttachmentArray`'s `.map`, fused with the
trailing `.filter(Boolean)` into a `filterMap`. -/
def mkAttachment (a : JVal) : Option SimpleAttachment :=
  if jsTruthy a && isObjectLike a then
    let id := getField a "id"
    let url := getField a "url"
    let filename := getField a "filename"
    if jsTruthy id && jsTruthy url && jsTruthy filename then
      some { id := id, url := url, filename := filename }
    else none
  else none

/-- `getAttachmentArray` (src/lib/airtable.ts lines 275-288). -/
def getAttachmentArray : JVal → List SimpleAttachment
  | .arr xs => xs.filterMap mkAttachment
  | _ => []

/-- The element list of an array value (`[]` for non-arrays). -/
def elems : JVal → List JVal
  | .arr xs => xs
  | _ => []

/-- `Array.isArray`. -/
def isArr : JVal → Bool
  | .arr _ => true
  | _ => false

/-- Whether a runtime value is a string. -/
def isStrVal : JVal → Bool
  | .str _ => true
  | _ => false

/-- One page answered by the Airtable list endpoint: its records and the
pagination `offset` token, when present. -/
structure ListPage (α : Type) where
  records : List α
  offset : Option String

/-- `pageSize = Math.min(Math.max(opts.pageSize || 100, 1), 100)` in
`listAllRecords` (a missing or zero `opts.pageSize` is falsy). -/
def effectivePageSize (p : Option Int) : Int :=
  let base : Int :=
    match p with
    | none => 100
    | some v => if v = 0 then 100 else v
  min (max base 1) 100

/-- Truthiness of `opts.maxRecords`. -/
def capActive : Option Nat → Bool
  | none => false
  | some k => k ≠ 0

/-- The numeric value of `opts.maxRecords` (0 when unset). -/
def capValue : Option Nat → Nat
  | none => 0
  | some k => k

/--
The pagination loop of `listAllRecords` (src/lib/airtable.ts lines 226-242)
over the sequence of pages the server answers, accumulating `out`.  The `[]`
case is a model artifact (the server always answers); claims are stated so
that the loop terminates within the given pages.
-/
def listAllRecordsGo {α : Type} (maxRecords : Option Nat) :
    List (ListPage α) → List α → List α
  | [], out => out
  | page :: rest, out =>
    let out2 := out ++ page.records
    if capActive maxRecords ∧ capValue maxRecords ≤ out2.length then
      out2.take (capValue maxRecords)
    else if page.offset.isNone then out2
    else listAllRecordsGo maxRecords rest out2

/-- `listAllRecords`, starting from an empty accumulator. -/
def listAllRecords {α : Type} (maxRecords : Option Nat)
    (pages : List (ListPage α)) : List α :=
  listAllRecordsGo maxRecords pages []

end Airtable

namespace Api

/-- C4: with no `programSlug` query parameter (and the method and environment
checks passed), the handler answers 200 with `items` mapping the program
records one to one, the three string fields defaulting to "" when absent;
with no program records it answers `items: []`. -/
theorem claim_C4 :
    (∀ (env : Env) (d : CPDb), envMissing env = false →
        clinicalProgramsHandler env "GET" none (Except.ok d) =
          ⟨200, CPBody.items (d.clinicalPrograms.map mkProgramItem)⟩) ∧
    (∀ r : ProgramFields,
        (r.programSlug = none → (mkProgramItem r).programSlug = "") ∧
        (r.programName = none → (mkProgramItem r).programName = "") ∧
        (r.programDescription = none → (mkProgramItem r).programDescription = "")) ∧
    (∀ (env : Env) (d : CPDb), envMissing env = false → d.clinicalPrograms = [] →
        clinicalProgramsHandler env "GET" none (Except.ok d) = ⟨200, CPBody.items []⟩) := by
  have htrim : jsTrim (strOr (none : Option String) "") = "" := by decide
  have hlist : ∀ (env : Env) (d : CPDb), envMissing env = false →
      clinicalProgramsHandler env "GET" none (Except.ok d) =
        ⟨200, CPBody.items (d.clinicalPrograms.map mkProgramItem)⟩ := by
    intro env d h
    simp [clinicalProgramsHandler, h, htrim]
  refine ⟨hlist, ?_, ?_⟩
  · intro r
    refine ⟨?_, ?_, ?_⟩ <;> intro h <;> simp [mkProgramItem, strOr, h]
  · intro env d h hd
    rw [hlist env d h, hd]
    simp

/-- Witness for C4 at a concrete environment and database. -/
theorem claim_C4_witness :
    clinicalProgramsHandler ⟨some "k", some "b"⟩ "GET" none
        (Except.ok ⟨[⟨none, none, none, none, none⟩], [], [], [], []⟩) =
      ⟨200, CPBody.items ([⟨none, none, none, none, none⟩].map mkProgramItem)⟩ ∧
    (mkProgramItem ⟨none, none, none, none, none⟩).programSlug = "" ∧
    clinicalProgramsHandler ⟨some "k", some "b"⟩ "GET" none (Except.ok ⟨[], [], [], [], []⟩) =
      ⟨200, CPBody.items []⟩ :=
  ⟨claim_C4.1 ⟨some "k", some "b"⟩ _ (by decide),
    (claim_C4.2.1 ⟨none, none, none, none, none⟩).1 rfl,
    claim_C4.2.2 ⟨some "k", some "b"⟩ ⟨[], [], [], [], []⟩ (by decide) rfl⟩

/-- C5: both handlers answer non-GET requests with 405, an unconfigured
environment (on a GET) with 500, a detail request matching no program with
404, and a thrown exception with 500 — each with a JSON body whose only
shape is an object with an `error` field. -/
theorem claim_C5 :
    (∀ (env : Env) (method : String) (slug : Option String) (db : Except Unit CPDb),
        method ≠ "GET" →
        clinicalProgramsHandler env method slug db =
          ⟨405, CPBody.errorBody "Method Not Allowed"⟩) ∧
    (∀ (env : Env) (method : String) (cat q : Option String) (db : Except Unit RLDb),
        method ≠ "GET" →
        resourceLibraryHandler env method cat q db =
          ⟨405, RLBody.errorBody "Method Not Allowed"⟩) ∧
    (∀ (env : Env) (slug : Option String) (db : Except Unit CPDb),
        envMissing env = true →
        (clinicalProgramsHandler env "GET" slug db).status = 500 ∧
        (clinicalProgramsHandler env "GET" slug db).body.hasErrorField = true) ∧
    (∀ (env : Env) (cat q : Option String) (db : Except Unit RLDb),
        envMissing env = true →
        (resourceLibraryHandler env "GET" cat q db).status = 500 ∧
        (resourceLibraryHandler env "GET" cat q db).body.hasErrorField = true) ∧
    (∀ (env : Env) (slug : Option String) (d : CPDb),
        envMissing env = false →
        jsTrim (strOr slug "") ≠ "" →
        d.clinicalPrograms.filter
          (fun r => r.programSlug.getD "" = jsTrim (strOr slug "")) = [] →
        clinicalProgramsHandler env "GET" slug (Except.ok d) =
          ⟨404, CPBody.errorBody "Program not found"⟩) ∧
    (∀ (env : Env) (slug : Option String),
        envMissing env = false →
        clinicalProgramsHandler env "GET" slug (Except.error ()) =
          ⟨500, CPBody.errorBody "Internal Server Error"⟩) ∧
    (∀ (env : Env) (cat q : Option String),
        envMissing env = false →
        resourceLibraryHandler env "GET" cat q (Except.error ()) =
          ⟨500, RLBody.errorBody "Internal Server Error"⟩) ∧
    (∀ msg : String, (CPBody.errorBody msg).hasErrorField = true ∧
        (RLBody.errorBody msg).hasErrorField = true) := by
  refine ⟨?_, ?_, ?_, ?_, ?_, ?_, ?_, ?_⟩
  · intro env method slug db h
    simp [clinicalProgramsHandler, h]
  · intro env method cat q db h
    simp [resourceLibraryHandler, h]
  · intro env slug db h
    simp [clinicalProgramsHandler, h, CPBody.hasErrorField]
  · intro env cat q db h
    simp [resourceLibraryHandler, h, RLBody.hasErrorField]
  · intro env slug d h hslug hfilter
    simp [clinicalProgramsHandler, h, hslug, hfilter]
  · intro env slug h
    simp [clinicalProgramsHandler, h]
  · intro env cat q h
    simp [resourceLibraryHandler, h]
  · intro msg
    exact ⟨rfl, rfl⟩

/-- Witness for C5 at concrete requests. -/
theorem claim_C5_witness :
    clinicalProgramsHandler ⟨some "k", some "b"⟩ "POST" none (Except.ok ⟨[], [], [], [], []⟩) =
      ⟨405, CPBody.errorBody "Method Not Allowed"⟩ ∧
    resourceLibraryHandler ⟨some "k", some "b"⟩ "POST" none none (Except.ok ⟨[], [], []⟩) =
      ⟨405, RLBody.errorBody "Method Not Allowed"⟩ ∧
    (clinicalProgramsHandler ⟨none, some "b"⟩ "GET" none (Except.ok ⟨[], [], [], [], []⟩)).status = 500 ∧
    (resourceLibraryHandler ⟨none, some "b"⟩ "GET" none none (Except.ok ⟨[], [], []⟩)).status = 500 ∧
    clinicalProgramsHandler ⟨some "k", some "b"⟩ "GET" (some "x") (Except.ok ⟨[], [], [], [], []⟩) =
      ⟨404, CPBody.errorBody "Program not found"⟩ ∧
    clinicalProgramsHandler ⟨some "k", some "b"⟩ "GET" none (Except.error ()) =
      ⟨500, CPBody.errorBody "Internal Server Error"⟩ ∧
    resourceLibraryHandler ⟨some "k", some "b"⟩ "GET" none none (Except.error ()) =
      ⟨500, RLBody.errorBody "Internal Server Error"⟩ :=
  ⟨claim_C5.1 ⟨some "k", some "b"⟩ "POST" none _ (by decide),
    claim_C5.2.1 ⟨some "k", some "b"⟩ "POST" none none _ (by decide),
    (claim_C5.2.2.1 ⟨none, some "b"⟩ none _ (by decide)).1,
    (claim_C5.2.2.2.1 ⟨none, some "b"⟩ none none _ (by decide)).1,
    claim_C5.2.2.2.2.1 ⟨some "k", some "b"⟩ (some "x") ⟨[], [], [], [], []⟩
      (by decide) (by decide) rfl,
    claim_C5.2.2.2.2.2.1 ⟨some "k", some "b"⟩ none (by decide),
    claim_C5.2.2.2.2.2.2.1 ⟨some "k", some "b"⟩ none none (by decide)⟩

end Api

namespace Auth

/-- C6: `login` resolves true and sets the authenticated mock-user state
exactly for the pair (demo@clinicalrxq.com, password); every other pair
resolves false and leaves the store state unchanged — in particular, from
the initial state, `user` stays null and `isAuthenticated` stays false. -/
theorem claim_C6 :
    (∀ (now : Nat) (email password : String) (st : AuthState),
        login now email password st =
            (true, { user := some (mockUser now), isAuthenticated := true }) ↔
          (email = "demo@clinicalrxq.com" ∧ password = "password")) ∧
    (∀ (now : Nat) (email password : String) (st : AuthState),
        ¬(email = "demo@clinicalrxq.com" ∧ password = "password") →
        login now email password st = (false, st)) ∧
    (∀ (now : Nat) (email password : String),
        ¬(email = "demo@clinicalrxq.com" ∧ password = "password") →
        (login now email password initialState).2.user = none ∧
        (login now email password initialState).2.isAuthenticated = false) := by
  have hfail : ∀ (now : Nat) (email password : String) (st : AuthState),
      ¬(email = "demo@clinicalrxq.com" ∧ password = "password") →
      login now email password st = (false, st) := by
    intro now email password st h
    simp [login, h]
  refine ⟨?_, hfail, ?_⟩
  · intro now email password st
    constructor
    · intro h
      by_contra hc
      rw [hfail now email password st hc] at h
      exact absurd (congrArg Prod.fst h) (by simp)
    · intro h
      simp [login, h]
  · intro now email password h
    rw [hfail now email password initialState h]
    exact ⟨rfl, rfl⟩

/-- Witness for C6 at concrete credentials. -/
theorem claim_C6_witness :
    (login 0 "demo@clinicalrxq.com" "password" initialState =
        (true, { user := some (mockUser 0), isAuthenticated := true })) ∧
    login 0 "demo@clinicalrxq.com" "wrong" initialState = (false, initialState) ∧
    (login 0 "a@b.c" "password" initialState).2.user = none :=
  ⟨(claim_C6.1 0 "demo@clinicalrxq.com" "password" initialState).mpr ⟨rfl, rfl⟩,
    claim_C6.2.1 0 "demo@clinicalrxq.com" "wrong" initialState (by decide),
    (claim_C6.2.2 0 "a@b.c" "password" (by decide)).1⟩

end Auth

namespace Migration

/-- The storage path `${pathPrefix}/${programSlug}/${fileName}` built for a
record's first attachment, `programSlug` defaulting to "uncategorized". -/
def migPath (pathStem : String) (r : MigRecord) (a : MigAttachment) : String :=
  pathStem ++ "/" ++ Api.strOr r.programSlug "uncategorized" ++ "/" ++ a.filename

/-- C8: a record whose file field holds at least one attachment has its first
attachment copied to `pathStem/programSlug/fileName` (slug defaulting to
"uncategorized") and its `supabaseFilePath` pointer set to that path; a
record with an empty file field is skipped and left unchanged; `migrateTable`
applies this to every record of the table. -/
theorem claim_C8 :
    (∀ (bucket pathStem : String) (r : MigRecord) (a : MigAttachment)
        (rest : List MigAttachment),
        r.attachments = a :: rest →
        migrateRecord bucket pathStem r =
          (some { bucket := bucket
                  path := migPath pathStem r a
                  sourceUrl := a.url
                  contentType := Api.strOr a.mimeType "application/octet-stream" },
            { r with supabaseFilePath := some (migPath pathStem r a) })) ∧
    (∀ (bucket pathStem : String) (r : MigRecord),
        r.attachments = [] → migrateRecord bucket pathStem r = (none, r)) ∧
    (∀ (bucket pathStem : String) (records : List MigRecord),
        (migrateTable bucket pathStem records).2 =
          records.map (fun r => (migrateRecord bucket pathStem r).2)) := by
  refine ⟨?_, ?_, ?_⟩
  · intro bucket pathStem r a rest h
    simp [migrateRecord, migPath, h]
  · intro bucket pathStem r h
    simp [migrateRecord, h]
  · intro bucket pathStem records
    simp [migrateTable]

/-- Witness for C8 at a concrete record. -/
theorem claim_C8_witness :
    migrateRecord "clinical-programs" "clinical-programs"
        ⟨"rec1", [⟨"f.pdf", none, "http://x"⟩], none, none⟩ =
      (some { bucket := "clinical-programs"
              path := migPath "clinical-programs"
                ⟨"rec1", [⟨"f.pdf", none, "http://x"⟩], none, none⟩ ⟨"f.pdf", none, "http://x"⟩
              sourceUrl := "http://x"
              contentType := Api.strOr none "application/octet-stream" },
        { id := "rec1", attachments := [⟨"f.pdf", none, "http://x"⟩],
          programSlug := none,
          supabaseFilePath :=
            some (migPath "clinical-programs"
              ⟨"rec1", [⟨"f.pdf", none, "http://x"⟩], none, none⟩
              ⟨"f.pdf", none, "http://x"⟩) }) ∧
    migrateRecord "resource-library" "resource-library" ⟨"rec2", [], some "s", none⟩ =
      (none, ⟨"rec2", [], some "s", none⟩) :=
  ⟨claim_C8.1 "clinical-programs" "clinical-programs"
      ⟨"rec1", [⟨"f.pdf", none, "http://x"⟩], none, none⟩ ⟨"f.pdf", none, "http://x"⟩ [] rfl,
    claim_C8.2.1 "resource-library" "resource-library" ⟨"rec2", [], some "s", none⟩ rfl⟩

end Migration

namespace Api

/-- Lowercasing never turns a nonempty string empty. -/
theorem jsToLower_ne_empty {s : String} (h : s ≠ "") : jsToLower s ≠ "" := by
  intro hc
  apply h
  cases s with
  | mk data =>
    have hmap : data.map Char.toLower = [] := congrArg String.data hc
    have hd : data = [] := List.map_eq_nil_iff.mp hmap
    simp [hd]

/-- C7 (amended): with `cat` equal to one of the three category names only
the corresponding table contributes; with `cat` absent the three tables are
merged in the order handouts, clinical, billing; every item produced under a
category filter carries that category tag; and a nonempty `q` keeps exactly
the items whose lowercased space-separated concatenation of name and
category label contains the lowercased `q`. -/
theorem claim_C7 :
    (∀ (env : Env) (q : Option String) (d : RLDb), envMissing env = false →
        resourceLibraryHandler env "GET" (some "handouts") q (Except.ok d) =
          ⟨200, RLBody.items (applyQ q
            ((fetchTable false d.patientHandouts).map (tagCategory Category.handouts)))⟩) ∧
    (∀ (env : Env) (q : Option String) (d : RLDb), envMissing env = false →
        resourceLibraryHandler env "GET" (some "clinical") q (Except.ok d) =
          ⟨200, RLBody.items (applyQ q
            ((fetchTable true d.clinicalGuidelines).map (tagCategory Category.clinical)))⟩) ∧
    (∀ (env : Env) (q : Option String) (d : RLDb), envMissing env = false →
        resourceLibraryHandler env "GET" (some "billing") q (Except.ok d) =
          ⟨200, RLBody.items (applyQ q
            ((fetchTable false d.medicalBillingResources).map (tagCategory Category.billing)))⟩) ∧
    (∀ (env : Env) (q : Option String) (d : RLDb), envMissing env = false →
        resourceLibraryHandler env "GET" none q (Except.ok d) =
          ⟨200, RLBody.items (applyQ q
            ((fetchTable false d.patientHandouts).map (tagCategory Category.handouts) ++
              (fetchTable true d.clinicalGuidelines).map (tagCategory Category.clinical) ++
              (fetchTable false d.medicalBillingResources).map (tagCategory Category.billing)))⟩) ∧
    (∀ (c : Category) (q : Option String) (xs : List SimpleItem) (x : TaggedItem),
        x ∈ applyQ q (xs.map (tagCategory c)) → x.category = c) ∧
    (∀ (q : String) (xs : List TaggedItem) (x : TaggedItem), q ≠ "" →
        (x ∈ applyQ (some q) xs ↔ x ∈ xs ∧
          strIncludes (jsToLower (x.name ++ " " ++ x.category.label)) (jsToLower q) = true)) := by
  have e1 : jsToLower (strOr (some "handouts") "") = "handouts" := by decide
  have e2 : jsToLower (strOr (some "clinical") "") = "clinical" := by decide
  have e3 : jsToLower (strOr (some "billing") "") = "billing" := by decide
  have e0 : jsToLower (strOr (none : Option String) "") = "" := by decide
  refine ⟨?_, ?_, ?_, ?_, ?_, ?_⟩
  · intro env q d h
    simp [resourceLibraryHandler, h, e1]
  · intro env q d h
    simp [resourceLibraryHandler, h, e2]
  · intro env q d h
    simp [resourceLibraryHandler, h, e3]
  · intro env q d h
    simp [resourceLibraryHandler, h, e0]
  · intro c q xs x hx
    have hx2 : x ∈ xs.map (tagCategory c) := by
      simp only [applyQ] at hx
      split at hx
      · exact List.mem_of_mem_filter hx
      · exact hx
    obtain ⟨si, _, rfl⟩ := List.mem_map.mp hx2
    rfl
  · intro q xs x hq
    have hs : strOr (some q) "" = q := by simp [strOr, hq]
    have hne : jsToLower q ≠ "" := jsToLower_ne_empty hq
    simp only [applyQ, hs]
    rw [if_pos hne]
    exact List.mem_filter

/-- The database of the C7 counterexample: one patient handout named "a". -/
def rlDbCex : RLDb :=
  { patientHandouts := [{ id := "r1", name := some "a", file := [], link := none }]
    clinicalGuidelines := []
    medicalBillingResources := [] }

/-- C7 as stated is false: for q = "ahandouts" the lowercase concatenation of
the item's name "a" and its category "handouts" does contain the lowercase q,
yet the handler excludes the item, because it filters on the space-separated
string "a handouts". -/
theorem claim_C7_cex :
    strIncludes (jsToLower ("a" ++ "handouts")) (jsToLower "ahandouts") = true ∧
    resourceLibraryHandler ⟨some "k", some "b"⟩ "GET" none none (Except.ok rlDbCex) =
      ⟨200, RLBody.items [⟨"r1", "a", none, Category.handouts⟩]⟩ ∧
    resourceLibraryHandler ⟨some "k", some "b"⟩ "GET" none (some "ahandouts")
        (Except.ok rlDbCex) = ⟨200, RLBody.items []⟩ := by
  refine ⟨by decide, by decide, by decide⟩

/-- Witness for C7 (amended) at concrete requests. -/
theorem claim_C7_witness :
    resourceLibraryHandler ⟨some "k", some "b"⟩ "GET" (some "handouts") none
        (Except.ok rlDbCex) =
      ⟨200, RLBody.items (applyQ none
        ((fetchTable false rlDbCex.patientHandouts).map (tagCategory Category.handouts)))⟩ ∧
    (⟨"r1", "a", none, Category.handouts⟩ : TaggedItem).category = Category.handouts ∧
    ((⟨"r1", "a", none, Category.handouts⟩ : TaggedItem) ∈
        applyQ (some "a") [⟨"r1", "a", none, Category.handouts⟩] ↔
      (⟨"r1", "a", none, Category.handouts⟩ : TaggedItem) ∈
          [(⟨"r1", "a", none, Category.handouts⟩ : TaggedItem)] ∧
        strIncludes (jsToLower ("a" ++ " " ++ (Category.handouts).label))
          (jsToLower "a") = true) :=
  ⟨claim_C7.1 ⟨some "k", some "b"⟩ none rlDbCex (by decide),
    claim_C7.2.2.2.2.1 Category.handouts none [⟨"r1", "a", none⟩]
      ⟨"r1", "a", none, Category.handouts⟩ (by decide),
    claim_C7.2.2.2.2.2 "a" [⟨"r1", "a", none, Category.handouts⟩]
      ⟨"r1", "a", none, Category.handouts⟩ (by decide)⟩

end Api

namespace Airtable

/-- Unpacking a successful `mkAttachment`: the three fields are truthy and
are the element's `id`, `url` and `filename` properties. -/
theorem mkAttachment_eq_some {x : JVal} {a : SimpleAttachment}
    (h : mkAttachment x = some a) :
    jsTruthy a.id = true ∧ jsTruthy a.url = true ∧ jsTruthy a.filename = true ∧
    a.id = getField x "id" ∧ a.url = getField x "url" ∧
    a.filename = getField x "filename" := by
  simp only [mkAttachment] at h
  split at h
  · split at h
    · rename_i hinner
      injection h with h'
      subst h'
      simp only [Bool.and_eq_true] at hinner
      exact ⟨by tauto, by tauto, by tauto, rfl, rfl, rfl⟩
    · exact absurd h (by simp)
  · exact absurd h (by simp)

/-- An element lacking a truthy `id`, `url` or `filename` is dropped. -/
theorem mkAttachment_dropped (x : JVal)
    (h : ¬(jsTruthy (getField x "id") = true ∧ jsTruthy (getField x "url") = true ∧
        jsTruthy (getField x "filename") = true)) :
    mkAttachment x = none := by
  simp only [mkAttachment]
  split
  · split
    · rename_i hinner
      simp only [Bool.and_eq_true] at hinner
      exact absurd (by tauto) h
    · rfl
  · rfl

/-- C9 (amended): `getAttachmentArray` returns `[]` on every non-array; every
returned element has truthy `id`, `url` and `filename` values copied from the
corresponding properties of some input element; elements lacking any of the
three are dropped; and the whole function is the element-wise `filterMap` of
`mkAttachment`. -/
theorem claim_C9 :
    (∀ v : JVal, isArr v = false → getAttachmentArray v = []) ∧
    (∀ v : JVal, ∀ a ∈ getAttachmentArray v, ∃ x ∈ elems v,
        jsTruthy a.id = true ∧ jsTruthy a.url = true ∧ jsTruthy a.filename = true ∧
        a.id = getField x "id" ∧ a.url = getField x "url" ∧
        a.filename = getField x "filename") ∧
    (∀ x : JVal, ¬(jsTruthy (getField x "id") = true ∧
        jsTruthy (getField x "url") = true ∧
        jsTruthy (getField x "filename") = true) → mkAttachment x = none) ∧
    (∀ v : JVal, getAttachmentArray v = (elems v).filterMap mkAttachment) := by
  refine ⟨?_, ?_, mkAttachment_dropped, fun v => by cases v <;> rfl⟩
  · intro v h
    cases v <;> simp_all [isArr, getAttachmentArray]
  · intro v a ha
    have he : getAttachmentArray v = (elems v).filterMap mkAttachment := by
      cases v <;> rfl
    rw [he] at ha
    obtain ⟨x, hx, hmk⟩ := List.mem_filterMap.mp ha
    obtain ⟨h1, h2, h3, h4, h5, h6⟩ := mkAttachment_eq_some hmk
    exact ⟨x, hx, h1, h2, h3, h4, h5, h6⟩

/-- The input of the C9 counterexample: one element with a numeric id. -/
def attCex : JVal :=
  JVal.arr [JVal.obj [("id", JVal.num 1), ("url", JVal.str "u"),
    ("filename", JVal.str "f")]]

/-- C9 as stated is false: a numeric id 1 is truthy, so the element is kept,
and the returned id is the number 1 — not a string. -/
theorem claim_C9_cex :
    getAttachmentArray attCex =
      [{ id := JVal.num 1, url := JVal.str "u", filename := JVal.str "f" }] ∧
    isStrVal (JVal.num 1) = false :=
  ⟨rfl, rfl⟩

/-- Witness for C9 (amended) at concrete values. -/
theorem claim_C9_witness :
    getAttachmentArray (JVal.str "nope") = [] ∧
    (∃ x ∈ elems attCex,
        jsTruthy (JVal.num 1) = true ∧ jsTruthy (JVal.str "u") = true ∧
        jsTruthy (JVal.str "f") = true ∧
        JVal.num 1 = getField x "id" ∧ JVal.str "u" = getField x "url" ∧
        JVal.str "f" = getField x "filename") ∧
    mkAttachment (JVal.obj []) = none :=
  ⟨claim_C9.1 (JVal.str "nope") rfl,
    claim_C9.2.1 attCex ⟨JVal.num 1, JVal.str "u", JVal.str "f"⟩ (List.Mem.head _),
    claim_C9.2.2.1 (JVal.obj []) (by decide)⟩

/-- The concatenation, in request order, of the records of a page sequence. -/
def pagesRecords {α : Type} (pages : List (ListPage α)) : List α :=
  (pages.map (fun p => p.records)).flatten

/-- The loop's result extends to a list that is still ahead of
`out ++ pagesRecords pages` — the accumulated output is an initial segment of
the concatenation of the pages in request order. -/
theorem listAllRecordsGo_front {α : Type} (m : Option Nat) (pages : List (ListPage α)) :
    ∀ out : List α, listAllRecordsGo m pages out <+: out ++ pagesRecords pages := by
  induction pages with
  | nil =>
    intro out
    simp [listAllRecordsGo, pagesRecords]
  | cons p rest ih =>
    intro out
    have hsplit : out ++ pagesRecords (p :: rest) =
        (out ++ p.records) ++ pagesRecords rest := by
      simp [pagesRecords, List.append_assoc]
    simp only [listAllRecordsGo]
    split
    · rw [hsplit]
      exact (List.take_prefix _ _).trans (List.prefix_append _ _)
    · split
      · rw [hsplit]
        exact List.prefix_append _ _
      · rw [hsplit]
        exact ih (out ++ p.records)

/-- With a positive cap, the loop never returns more than `maxRecords`
records. -/
theorem listAllRecordsGo_length_le {α : Type} (k : Nat) (hk : 0 < k)
    (pages : List (ListPage α)) :
    ∀ out : List α, out.length ≤ k →
      (listAllRecordsGo (some k) pages out).length ≤ k := by
  induction pages with
  | nil =>
    intro out h
    simpa [listAllRecordsGo] using h
  | cons p rest ih =>
    intro out h
    have hca : capActive (some k) = true := by
      simp [capActive]
      omega
    simp only [listAllRecordsGo]
    split
    · simp [List.length_take, capValue]
    · rename_i hc
      have hlen : (out ++ p.records).length < k := by
        by_contra hge
        push_neg at hge
        exact hc ⟨hca, by simpa [capValue] using hge⟩
      split
      · omega
      · exact ih (out ++ p.records) (le_of_lt hlen)

/-- C10: the effective page size is clamped to [1, 100]; with a positive
`maxRecords` the result has length at most `maxRecords` and is a prefix of
the concatenation of the pages in request order; the loop requests a further
page exactly when the page at hand carries an `offset` and the cap has not
been reached, and cuts the output to the cap as soon as it is reached. -/
theorem claim_C10 :
    (∀ p : Option Int, 1 ≤ effectivePageSize p ∧ effectivePageSize p ≤ 100) ∧
    (∀ (α : Type) (k : Nat) (pages : List (ListPage α)), 0 < k →
        (listAllRecords (some k) pages).length ≤ k) ∧
    (∀ (α : Type) (m : Option Nat) (pages : List (ListPage α)),
        listAllRecords m pages <+: pagesRecords pages) ∧
    (∀ (α : Type) (m : Option Nat) (p : ListPage α) (rest : List (ListPage α))
        (out : List α),
        ¬(capActive m = true ∧ capValue m ≤ (out ++ p.records).length) →
        (p.offset.isSome = true →
          listAllRecordsGo m (p :: rest) out = listAllRecordsGo m rest (out ++ p.records)) ∧
        (p.offset = none → listAllRecordsGo m (p :: rest) out = out ++ p.records)) ∧
    (∀ (α : Type) (m : Option Nat) (p : ListPage α) (rest : List (ListPage α))
        (out : List α),
        capActive m = true → capValue m ≤ (out ++ p.records).length →
        listAllRecordsGo m (p :: rest) out = (out ++ p.records).take (capValue m)) := by
  refine ⟨?_, ?_, ?_, ?_, ?_⟩
  · intro p
    unfold effectivePageSize
    exact ⟨le_min (le_max_right _ _) (by norm_num), min_le_right _ _⟩
  · intro α k pages hk
    exact listAllRecordsGo_length_le k hk pages [] (by simp)
  · intro α m pages
    simpa [listAllRecords] using listAllRecordsGo_front m pages []
  · intro α m p rest out hc
    refine ⟨?_, ?_⟩
    · intro hoff
      have hnone : p.offset.isNone = false := by
        cases hpo : p.offset <;> simp_all
      simp only [listAllRecordsGo]
      rw [if_neg hc, if_neg (by simp [hnone])]
    · intro hoff
      simp only [listAllRecordsGo]
      rw [if_neg hc, if_pos (by simp [hoff])]
  · intro α m p rest out hca hle
    simp only [listAllRecordsGo]
    rw [if_pos ⟨hca, hle⟩]

/-- Witness for C10 at concrete pages of `Nat` records. -/
theorem claim_C10_witness :
    (listAllRecords (some 1) [⟨[5, 6], none⟩] : List Nat).length ≤ 1 ∧
    listAllRecordsGo (none : Option Nat) [(⟨[1], some "o"⟩ : ListPage Nat)] [] =
      listAllRecordsGo none ([] : List (ListPage Nat)) ([] ++ [1]) ∧
    listAllRecordsGo (none : Option Nat) [(⟨[1], none⟩ : ListPage Nat)] [] = [] ++ [1] ∧
    listAllRecordsGo (some 1) [(⟨[1, 2], none⟩ : ListPage Nat)] [] =
      ([] ++ [1, 2]).take (capValue (some 1)) :=
  ⟨claim_C10.2.1 Nat 1 [⟨[5, 6], none⟩] (by decide),
    (claim_C10.2.2.2.1 Nat none ⟨[1], some "o"⟩ [] [] (by decide)).1 rfl,
    (claim_C10.2.2.2.1 Nat none ⟨[1], none⟩ [] [] (by decide)).2 rfl,
    claim_C10.2.2.2.2 Nat (some 1) ⟨[1, 2], none⟩ [] [] (by decide) (by decide)⟩

end Airtable
